import Mathlib

/-!
Verification development for the bellscoinV3 header-sync and
proof-of-work retargeting core.

The definitions below are a shallow embedding of the C++ sources
`src/pow.cpp` and `src/headerssync.cpp` together with the consensus
parameter accessors of `src/consensus/params.cpp`.  256-bit unsigned
targets (`arith_uint256`) are represented as `Nat`; 64-bit signed
timestamps and heights are represented as `Int`; compact difficulty
encodings are represented as `Nat` values below `2^32`.

The `arith_uint256` implementation itself is not part of the sources,
so its operations and the compact codec are modelled from the spec
(saturating 256-bit add/sub/mul/div, and the standard lossy compact
encoding whose round-trip stays within one unit in the last place).
-/

namespace BellsPow

/-- Largest representable 256-bit value. -/
def U256MAX : Nat := 2 ^ 256 - 1

/-- Modelled from the spec: saturating 256-bit addition
(spec section 4.1, compact-target arithmetic; the arith_uint256
implementation is not under src/). -/
def u256add (a b : Nat) : Nat := min (a + b) U256MAX

/-- Modelled from the spec: saturating 256-bit multiplication. -/
def u256mul (a b : Nat) : Nat := min (a * b) U256MAX

/-- Modelled from the spec: 256-bit floor division (division by zero
yields zero, which the sources never rely on). -/
def u256div (a b : Nat) : Nat := a / b

/-- Modelled from the spec: conversion of a signed 64-bit quantity to a
256-bit unsigned value, wrapping modulo `2^64` exactly as the C++
integral conversion does. -/
def u256ofInt (x : Int) : Nat := (x % (2 ^ 64 : Int)).toNat

/-- Halving recursion for `bitsLen`, with an explicit fuel bound so the
definition is structurally recursive and kernel-computable. -/
def bitsLenAux : Nat → Nat → Nat
  | 0, _ => 0
  | _, 0 => 0
  | fuel + 1, x => bitsLenAux fuel (x / 2) + 1

/-- Number of significant bits of a 256-bit value (base_uint::bits);
the input is first reduced to the 256-bit domain, on which 256 halving
steps always suffice. -/
def bitsLen (x : Nat) : Nat := bitsLenAux 256 (x % 2 ^ 256)

/-- Modelled from the spec: the compact ("nBits") encoding of a 256-bit
target, `compact_from_target` (arith_uint256::GetCompact is not under
src/); lossy beyond the top three bytes, as the spec requires. -/
def getCompact (x : Nat) : Nat :=
  let nSize := (bitsLen x + 7) / 8
  let nCompact :=
    if nSize ≤ 3 then (x % 2 ^ 64) <<< (8 * (3 - nSize))
    else (x >>> (8 * (nSize - 3))) % 2 ^ 64
  let p := if nCompact &&& 0x00800000 ≠ 0 then (nCompact >>> 8, nSize + 1)
           else (nCompact, nSize)
  p.1 ||| (p.2 <<< 24)

/-- Modelled from the spec: the 256-bit target decoded from a compact
encoding, `target_from_compact` (arith_uint256::SetCompact is not under
src/); the left shift wraps modulo `2^256` like base_uint. -/
def setCompactValue (nCompact : Nat) : Nat :=
  let nSize := nCompact >>> 24
  let nWord := nCompact &&& 0x007fffff
  if nSize ≤ 3 then nWord >>> (8 * (3 - nSize))
  else (nWord <<< (8 * (nSize - 3))) % 2 ^ 256

/-- Consensus parameter record, with the fields of Consensus::Params
that the embedded sources read (field values as set in
src/kernel/chainparams.cpp). -/
structure ConsensusParams where
  powLimit : Nat
  nPowAveragingWindow : Int
  nPowMaxAdjustUp : Int
  nPowMaxAdjustDown : Int
  nPostBlossomPowTargetSpacing : Int
  nPowTargetTimespan : Int
  nPowTargetSpacing : Int
  fPowAllowMinDifficultyBlocks : Bool
  nPowAllowMinDifficultyBlocksAfterHeight : Option Nat
  fPowNoRetargeting : Bool
  nNewPowDiffHeight : Int

/-- Consensus::Params::PoWTargetSpacing (src/consensus/params.cpp):
returns the post-blossom spacing. -/
def ConsensusParams.PoWTargetSpacing (p : ConsensusParams) : Int :=
  p.nPostBlossomPowTargetSpacing

/-- Consensus::Params::AveragingWindowTimespan
(src/consensus/params.cpp). -/
def ConsensusParams.AveragingWindowTimespan (p : ConsensusParams) : Int :=
  p.nPowAveragingWindow * p.PoWTargetSpacing

/-- Consensus::Params::MinActualTimespan (src/consensus/params.cpp);
C++ integer division truncates toward zero. -/
def ConsensusParams.MinActualTimespan (p : ConsensusParams) : Int :=
  Int.tdiv (p.AveragingWindowTimespan * (100 - p.nPowMaxAdjustUp)) 100

/-- Consensus::Params::MaxActualTimespan (src/consensus/params.cpp). -/
def ConsensusParams.MaxActualTimespan (p : ConsensusParams) : Int :=
  Int.tdiv (p.AveragingWindowTimespan * (100 + p.nPowMaxAdjustDown)) 100

/-- Modelled from the spec: DifficultyAdjustmentInterval =
`pow_target_timespan / pow_target_spacing` (the accessor lives in the
consensus params header, which is not under src/). -/
def ConsensusParams.DifficultyAdjustmentInterval (p : ConsensusParams) : Int :=
  Int.tdiv p.nPowTargetTimespan p.nPowTargetSpacing

/-- CalculateNextWorkRequiredNew (src/pow.cpp lines 165-202): damp the
window timespan, clamp it, divide the window-average target by the
averaging timespan and multiply by the damped timespan, clamp to the
pow limit, and return the compact encoding. -/
def calculateNextWorkRequiredNew (bnAvg : Nat)
    (nLastBlockTime nFirstBlockTime : Int) (params : ConsensusParams) : Nat :=
  let averagingWindowTimespan := params.AveragingWindowTimespan
  let minActualTimespan := params.MinActualTimespan
  let maxActualTimespan := params.MaxActualTimespan
  let nActualTimespan := nLastBlockTime - nFirstBlockTime
  let nActualTimespan :=
    averagingWindowTimespan + Int.tdiv (nActualTimespan - averagingWindowTimespan) 4
  let nActualTimespan :=
    if nActualTimespan < minActualTimespan then minActualTimespan else nActualTimespan
  let nActualTimespan :=
    if nActualTimespan > maxActualTimespan then maxActualTimespan else nActualTimespan
  let bnPowLimit := params.powLimit
  let bnNew := bnAvg
  let bnNew := u256div bnNew (u256ofInt averagingWindowTimespan)
  let bnNew := u256mul bnNew (u256ofInt nActualTimespan)
  let bnNew := if bnNew > bnPowLimit then bnPowLimit else bnNew
  getCompact bnNew

/-- PermittedDifficultyTransition (src/pow.cpp lines 248-308). -/
def permittedDifficultyTransition (params : ConsensusParams) (height : Int)
    (old_nbits new_nbits : Nat) : Bool :=
  if params.fPowAllowMinDifficultyBlocks then true
  else if Int.tmod height params.DifficultyAdjustmentInterval = 0 then
    let smallest_timespan := Int.tdiv params.nPowTargetTimespan 4
    let largest_timespan := params.nPowTargetTimespan * 4
    let pow_limit := params.powLimit
    let observed_new_target := setCompactValue new_nbits
    let largest_difficulty_target :=
      u256div (u256mul (setCompactValue old_nbits) (u256ofInt largest_timespan))
        (u256ofInt params.nPowTargetTimespan)
    let largest_difficulty_target :=
      if largest_difficulty_target > pow_limit then pow_limit
      else largest_difficulty_target
    let maximum_new_target := setCompactValue (getCompact largest_difficulty_target)
    if maximum_new_target < observed_new_target then false
    else
      let smallest_difficulty_target :=
        u256div (u256mul (setCompactValue old_nbits) (u256ofInt smallest_timespan))
          (u256ofInt params.nPowTargetTimespan)
      let smallest_difficulty_target :=
        if smallest_difficulty_target > pow_limit then pow_limit
        else smallest_difficulty_target
      let minimum_new_target := setCompactValue (getCompact smallest_difficulty_target)
      if minimum_new_target > observed_new_target then false else true
  else if old_nbits ≠ new_nbits then false
  else true

/-- The retarget formula exactly as stated by claim C1: the product of
the window-average target and the damped timespan is taken before the
division by the averaging timespan, and the divisions are floor
divisions. -/
def claimC1Formula (bnAvg : Nat) (mtpLast mtpFirst : Int)
    (p : ConsensusParams) : Nat :=
  let T := p.AveragingWindowTimespan
  let damped := T + Int.fdiv ((mtpLast - mtpFirst) - T) 4
  let damped := if damped < p.MinActualTimespan then p.MinActualTimespan else damped
  let damped := if damped > p.MaxActualTimespan then p.MaxActualTimespan else damped
  let product := u256mul bnAvg (u256ofInt damped)
  let newTarget := u256div product (u256ofInt T)
  getCompact (min p.powLimit newTarget)

/-- The amended C1 formula, following the code: the floor division of
the window average by the averaging timespan happens before the
multiplication by the damped timespan, and the damping term divides
with truncation toward zero, as C++ does. -/
def amendedC1Formula (bnAvg : Nat) (mtpLast mtpFirst : Int)
    (p : ConsensusParams) : Nat :=
  let T := p.AveragingWindowTimespan
  let damped := T + Int.tdiv ((mtpLast - mtpFirst) - T) 4
  let damped := if damped < p.MinActualTimespan then p.MinActualTimespan else damped
  let damped := if damped > p.MaxActualTimespan then p.MaxActualTimespan else damped
  let quotient := u256div bnAvg (u256ofInt T)
  let newTarget := u256mul quotient (u256ofInt damped)
  getCompact (min p.powLimit newTarget)

/-- Mainnet-shaped parameters used as the concrete input refuting
claim C1. -/
def c1ExampleParams : ConsensusParams :=
  { powLimit := 2 ^ 255, nPowAveragingWindow := 17, nPowMaxAdjustUp := 32,
    nPowMaxAdjustDown := 16, nPostBlossomPowTargetSpacing := 60,
    nPowTargetTimespan := 14400, nPowTargetSpacing := 60,
    fPowAllowMinDifficultyBlocks := false,
    nPowAllowMinDifficultyBlocksAfterHeight := none,
    fPowNoRetargeting := false, nNewPowDiffHeight := 0 }

/-- C1 counterexample: with bnAvg = 3 and a window timespan damped to 765
(averaging timespan 1020), the code computes `(3 / 1020) * 765 = 0`
while the claimed product-first formula computes
`(3 * 765) / 1020 = 2`; the two compact encodings differ. -/
theorem c1_counterexample :
    calculateNextWorkRequiredNew 3 100 100 c1ExampleParams ≠
      claimC1Formula 3 100 100 c1ExampleParams := by
  decide

/-- C1 (amended): for every input, CalculateNextWorkRequiredNew returns
`compact_from_target(min(pow_limit, (bnAvg / averaging_timespan) · damped))`
with the division applied to the window average before the
multiplication, where `damped` uses C-style truncated division. -/
theorem c1_amended_calculateNextWorkRequiredNew (bnAvg : Nat)
    (mtpLast mtpFirst : Int) (p : ConsensusParams) :
    calculateNextWorkRequiredNew bnAvg mtpLast mtpFirst p =
      amendedC1Formula bnAvg mtpLast mtpFirst p := by
  have hclamp : ∀ L X : Nat, (if X > L then L else X) = min L X := by
    intro L X; split <;> omega
  simp only [calculateNextWorkRequiredNew, amendedC1Formula, hclamp]

/-- The compact-rounded scaling of an old target by a timespan
fraction, clamped to the pow limit, as described by claim C4. -/
def c4ScaledTarget (p : ConsensusParams) (old_nbits : Nat) (timespan : Int) : Nat :=
  let t := u256div (u256mul (setCompactValue old_nbits) (u256ofInt timespan))
    (u256ofInt p.nPowTargetTimespan)
  let t := if t > p.powLimit then p.powLimit else t
  setCompactValue (getCompact t)

/-- C4: PermittedDifficultyTransition accepts unconditionally when
min-difficulty blocks are allowed; on a retarget boundary it accepts
iff the decoded new bits lie between the compact-rounded scalings of
the old target by timespan/4 and timespan*4, each clamped to the pow
limit; off a boundary it accepts iff the bits are unchanged. -/
theorem c4_permittedDifficultyTransition_iff (p : ConsensusParams)
    (height : Int) (old_nbits new_nbits : Nat) :
    permittedDifficultyTransition p height old_nbits new_nbits = true ↔
      (if p.fPowAllowMinDifficultyBlocks = true then True
       else if Int.tmod height p.DifficultyAdjustmentInterval = 0 then
         c4ScaledTarget p old_nbits (Int.tdiv p.nPowTargetTimespan 4) ≤
           setCompactValue new_nbits ∧
         setCompactValue new_nbits ≤
           c4ScaledTarget p old_nbits (p.nPowTargetTimespan * 4)
       else new_nbits = old_nbits) := by
  by_cases hmin : p.fPowAllowMinDifficultyBlocks = true
  · simp [permittedDifficultyTransition, hmin]
  by_cases hbound : Int.tmod height p.DifficultyAdjustmentInterval = 0
  · simp [permittedDifficultyTransition, c4ScaledTarget, hmin, hbound]
    omega
  · simp [permittedDifficultyTransition, c4ScaledTarget, hmin, hbound]
    omega

/-! ## Headers-sync state machine (src/headerssync.cpp) -/

/-- Store one header commitment per this many blocks
(src/headerssync.cpp line 19). -/
def HEADER_COMMITMENT_PERIOD : Nat := 600

/-- Feed headers to validation only once this many headers on top have
been received and validated against commitments
(src/headerssync.cpp line 23). -/
def REDOWNLOAD_BUFFER_SIZE : Nat := 12330

/-- Modelled from the spec: the MTP span is the fixed constant 11
(`mtp_span: u8 = 11`); the C++ constant lives in headerssync.h, which
is not under src/. -/
def MTP_SPAN : Nat := 11

/-- Block header record (src/primitives/pureheader.h): version,
previous-block hash, merkle root, time, compact bits, nonce.  Hashes
are 256-bit numbers. -/
structure CBlockHeader where
  nVersion : Int
  hashPrevBlock : Nat
  hashMerkleRoot : Nat
  nTime : Nat
  nBits : Nat
  nNonce : Nat
deriving DecidableEq

/-- The all-zero header produced by CPureBlockHeader::SetNull. -/
def nullBlockHeader : CBlockHeader :=
  { nVersion := 0, hashPrevBlock := 0, hashMerkleRoot := 0,
    nTime := 0, nBits := 0, nNonce := 0 }

/-- Modelled from the spec: a redownload-buffer entry is a compressed
header, the header minus its previous-hash field (the CompressedHeader
struct lives in headerssync.h, which is not under src/). -/
structure CompressedHeader where
  nVersion : Int
  hashMerkleRoot : Nat
  nTime : Nat
  nBits : Nat
  nNonce : Nat
deriving DecidableEq

/-- Compress a full header by dropping its previous-hash field. -/
def CompressedHeader.ofHeader (h : CBlockHeader) : CompressedHeader :=
  { nVersion := h.nVersion, hashMerkleRoot := h.hashMerkleRoot,
    nTime := h.nTime, nBits := h.nBits, nNonce := h.nNonce }

/-- Reconstruct the full header from a compressed one by reintroducing
the previous-hash field. -/
def CompressedHeader.GetFullHeader (c : CompressedHeader)
    (hash_prev_block : Nat) : CBlockHeader :=
  { nVersion := c.nVersion, hashPrevBlock := hash_prev_block,
    hashMerkleRoot := c.hashMerkleRoot, nTime := c.nTime,
    nBits := c.nBits, nNonce := c.nNonce }

/-- Modelled from the spec: block work contribution
`work(bits) = floor(2^256 / (target(bits) + 1))` (GetBlockProof lives
in chain.cpp, which is not under src/). -/
def blockProof (nBits : Nat) : Nat := 2 ^ 256 / (setCompactValue nBits + 1)

/-- Sync-machine phase (HeadersSyncState::State). -/
inductive SyncState where
  | PRESYNC
  | REDOWNLOAD
  | FINAL
deriving DecidableEq

/-- Result record of one ProcessNextHeaders call; field defaults are
modelled from the spec (success and request_more start false, the
validated-header list starts empty). -/
structure ProcessingResult where
  powValidatedHeaders : List CBlockHeader := []
  success : Bool := false
  requestMore : Bool := false
deriving DecidableEq

/-- Per-peer sync instance (HeadersSyncState).  The salted one-bit
hasher and the double-hash primitive are collaborator-supplied and kept
abstract as function-valued fields; the chain-start block index is
represented by its header, hash, height, accumulated work, and the list
of its ancestors' headers (most recent first, following the pprev
links), plus the collaborator-supplied locator entries. -/
structure HeadersSyncState where
  hashFn : CBlockHeader → Nat
  hasher : Nat → Bool
  consensusParams : ConsensusParams
  commitOffset : Nat
  maxCommitments : Nat
  minimumRequiredWork : Nat
  chainStartHeader : CBlockHeader
  chainStartHash : Nat
  chainStartHeight : Int
  chainStartWork : Nat
  chainStartAncestors : List CBlockHeader
  locatorEntriesOfChainStart : List Nat
  downloadState : SyncState
  currentChainWork : Nat
  lastHeaderReceived : CBlockHeader
  currentHeight : Int
  headerCommitments : List Bool
  redownloadedHeaders : List CompressedHeader
  redownloadBufferLastHash : Nat
  redownloadBufferFirstPrevHash : Nat
  redownloadBufferLastHeight : Int
  redownloadChainWork : Nat
  processAllRemainingHeaders : Bool
  recentNbits : List Nat
  recentMtp : List Int
  last11Times : List Int

/-- Drop elements from the front of a FIFO until its size is no larger
than the (signed) capacity, mirroring a C++ while-pop_front loop. -/
def trimFront {α : Type} (l : List α) (cap : Int) : List α :=
  l.drop (l.length - cap.toNat)

/-- HeadersSyncState::ComputeMtpForNewTime (src/headerssync.cpp lines
383-395): push the candidate time into the history, drop the oldest
entry past the span, and return the element at the floor middle index
of the sorted present elements.  Returns the median together with the
updated history. -/
def computeMtpForNewTime (times : List Int) (newTime : Int) : Int × List Int :=
  let l := times ++ [newTime]
  let l := if l.length > MTP_SPAN then l.drop 1 else l
  let mid := l.length / 2
  ((List.insertionSort (· ≤ ·) l).getD mid 0, l)

/-- HeadersSyncState::PushRetargetSample (src/headerssync.cpp lines
397-405): append the accepted bits and MTP, bounding the FIFOs to the
averaging window and window+1 respectively. -/
def pushRetargetSample (s : HeadersSyncState) (nbits : Nat) (mtp : Int) :
    HeadersSyncState :=
  let win := s.consensusParams.nPowAveragingWindow
  { s with recentNbits := trimFront (s.recentNbits ++ [nbits]) win,
           recentMtp := trimFront (s.recentMtp ++ [mtp]) (win + 1) }

/-- HeadersSyncState::SeedRetargetBuffersFromLastHeader
(src/headerssync.cpp lines 344-356). -/
def seedRetargetBuffersFromLastHeader (s : HeadersSyncState) : HeadersSyncState :=
  let s := { s with recentNbits := [], recentMtp := [], last11Times := [] }
  let m := computeMtpForNewTime s.last11Times (s.lastHeaderReceived.nTime : Int)
  pushRetargetSample { s with last11Times := m.2 } s.lastHeaderReceived.nBits m.1

/-- HeadersSyncState::ResetRetargetBuffersToChainStart
(src/headerssync.cpp lines 358-381): clear the buffers and replay the
chain-start block and its ancestors, oldest first. -/
def resetRetargetBuffersToChainStart (s : HeadersSyncState) : HeadersSyncState :=
  let s := { s with recentNbits := [], recentMtp := [], last11Times := [] }
  let win := s.consensusParams.nPowAveragingWindow
  let needed := win + 1 + (MTP_SPAN : Int)
  let history := (s.chainStartHeader :: s.chainStartAncestors).take needed.toNat
  history.reverse.foldl
    (fun st hdr =>
      let m := computeMtpForNewTime st.last11Times (hdr.nTime : Int)
      pushRetargetSample { st with last11Times := m.2 } hdr.nBits m.1)
    s

/-- HeadersSyncState::CheckWindowAwareRetarget (src/headerssync.cpp
lines 407-473). -/
def checkWindowAwareRetarget (s : HeadersSyncState)
    (prev_nbits next_nbits : Nat) (next_time prev_time next_height : Int) : Bool :=
  let win := s.consensusParams.nPowAveragingWindow
  if (s.recentNbits.length : Int) < win ∨ (s.recentMtp.length : Int) < win + 1 then
    true
  else if next_height ≤ s.consensusParams.nNewPowDiffHeight + win then
    true
  else
    let minDiffDecision : Option Bool :=
      match s.consensusParams.nPowAllowMinDifficultyBlocksAfterHeight with
      | some v =>
        if ((next_height - 1) % (2 ^ 32 : Int)).toNat ≥ v then
          if next_time > prev_time + s.consensusParams.PoWTargetSpacing * 6 then
            some (next_nbits == getCompact s.consensusParams.powLimit)
          else none
        else none
      | none => none
    match minDiffDecision with
    | some b => b
    | none =>
      let bnTot := s.recentNbits.foldl (fun acc nb => u256add acc (setCompactValue nb)) 0
      let bnAvg := u256div bnTot ((win % (2 ^ 32 : Int)).toNat)
      let mtplast := s.recentMtp.getLastD 0
      let mtpfirst := s.recentMtp.headD 0
      let exp_compact := calculateNextWorkRequiredNew bnAvg mtplast mtpfirst s.consensusParams
      let exp_target := setCompactValue exp_compact
      let obs_target := setCompactValue next_nbits
      let slack : Nat := 4
      let min_t := if exp_target > slack then exp_target - slack else 0
      let max_t := u256add exp_target slack
      if obs_target < min_t ∨ obs_target > max_t then
        permittedDifficultyTransition s.consensusParams next_height prev_nbits next_nbits
      else true

/-- HeadersSyncState::Finalize (src/headerssync.cpp lines 58-70):
release the commitment and redownload buffers, null the cached hashes
and last header, reset the progress fields that the code resets, and
mark the instance FINAL. -/
def finalize (s : HeadersSyncState) : HeadersSyncState :=
  { s with headerCommitments := [],
           lastHeaderReceived := nullBlockHeader,
           redownloadedHeaders := [],
           redownloadBufferLastHash := 0,
           redownloadBufferFirstPrevHash := 0,
           processAllRemainingHeaders := false,
           currentHeight := 0,
           downloadState := .FINAL }

/-- The commitment-sampling and accumulation tail of
ValidateAndProcessSingleHeader (src/headerssync.cpp lines 208-229),
operating on the possibly reseeded instance after the difficulty check
passed. -/
def presyncAcceptHeader (s : HeadersSyncState) (current : CBlockHeader)
    (next_height : Int) : Bool × HeadersSyncState :=
  let step :=
    if (next_height % (2 ^ 64 : Int)).toNat % HEADER_COMMITMENT_PERIOD = s.commitOffset then
      let s := { s with headerCommitments :=
                   s.headerCommitments ++ [s.hasher (s.hashFn current)] }
      (if s.headerCommitments.length > s.maxCommitments then false else true, s)
    else (true, s)
  if step.1 then
    let s := { step.2 with
                 currentChainWork := u256add step.2.currentChainWork (blockProof current.nBits),
                 lastHeaderReceived := current,
                 currentHeight := next_height }
    let m := computeMtpForNewTime s.last11Times (current.nTime : Int)
    (true, pushRetargetSample { s with last11Times := m.2 } current.nBits m.1)
  else (false, step.2)

/-- HeadersSyncState::ValidateAndProcessSingleHeader
(src/headerssync.cpp lines 185-230).  Returns the success flag together
with the mutated instance (C++ member mutations persist even when the
call fails). -/
def validateAndProcessSingleHeader (s : HeadersSyncState)
    (current : CBlockHeader) : Bool × HeadersSyncState :=
  if s.downloadState ≠ .PRESYNC then (false, s)
  else
    let next_height := s.currentHeight + 1
    let s := if s.recentNbits.isEmpty then seedRetargetBuffersFromLastHeader s else s
    if ¬checkWindowAwareRetarget s s.lastHeaderReceived.nBits current.nBits
        (current.nTime : Int) (s.lastHeaderReceived.nTime : Int) next_height then
      (false, s)
    else presyncAcceptHeader s current next_height

/-- The header-by-header loop of ValidateAndStoreHeadersCommitments
(src/headerssync.cpp lines 165-169), short-circuiting on the first
failure. -/
def validateHeadersFold (s : HeadersSyncState) :
    List CBlockHeader → Bool × HeadersSyncState
  | [] => (true, s)
  | hdr :: rest =>
    match validateAndProcessSingleHeader s hdr with
    | (false, s) => (false, s)
    | (true, s) => validateHeadersFold s rest

/-- HeadersSyncState::ValidateAndStoreHeadersCommitments
(src/headerssync.cpp lines 142-183), including the transition to
REDOWNLOAD once the accumulated work reaches the threshold. -/
def validateAndStoreHeadersCommitments (s : HeadersSyncState)
    (headers : List CBlockHeader) : Bool × HeadersSyncState :=
  if headers.length = 0 then (true, s)
  else if s.downloadState ≠ .PRESYNC then (false, s)
  else if (headers.headD nullBlockHeader).hashPrevBlock ≠ s.hashFn s.lastHeaderReceived then
    (false, s)
  else
    match validateHeadersFold s headers with
    | (false, s) => (false, s)
    | (true, s) =>
      if s.currentChainWork ≥ s.minimumRequiredWork then
        let s := { s with redownloadedHeaders := [],
                          redownloadBufferLastHeight := s.chainStartHeight,
                          redownloadBufferFirstPrevHash := s.chainStartHash,
                          redownloadBufferLastHash := s.chainStartHash,
                          redownloadChainWork := s.chainStartWork }
        let s := resetRetargetBuffersToChainStart s
        (true, { s with downloadState := .REDOWNLOAD })
      else (true, s)

/-- The work-accounting, commitment-verification and storage tail of
ValidateAndStoreRedownloadedHeader (src/headerssync.cpp lines 264-300),
after the connectivity and difficulty checks passed. -/
def redownloadAcceptHeader (s : HeadersSyncState) (header : CBlockHeader)
    (next_height : Int) : Bool × HeadersSyncState :=
  let s := { s with redownloadChainWork :=
               u256add s.redownloadChainWork (blockProof header.nBits) }
  let s := if s.redownloadChainWork ≥ s.minimumRequiredWork then
             { s with processAllRemainingHeaders := true }
           else s
  let step :=
    if ¬s.processAllRemainingHeaders ∧
        (next_height % (2 ^ 64 : Int)).toNat % HEADER_COMMITMENT_PERIOD = s.commitOffset then
      if s.headerCommitments.length = 0 then (false, s)
      else
        let expected := s.headerCommitments.headD false
        let s := { s with headerCommitments := s.headerCommitments.tail }
        (if s.hasher (s.hashFn header) ≠ expected then false else true, s)
    else (true, s)
  if step.1 then
    let s := step.2
    let m := computeMtpForNewTime s.last11Times (header.nTime : Int)
    let s := { s with
      redownloadedHeaders := s.redownloadedHeaders ++ [CompressedHeader.ofHeader header],
      redownloadBufferLastHeight := next_height,
      redownloadBufferLastHash := s.hashFn header,
      last11Times := m.2 }
    (true, pushRetargetSample s header.nBits m.1)
  else (false, step.2)

/-- HeadersSyncState::ValidateAndStoreRedownloadedHeader
(src/headerssync.cpp lines 232-301). -/
def validateAndStoreRedownloadedHeader (s : HeadersSyncState)
    (header : CBlockHeader) : Bool × HeadersSyncState :=
  if s.downloadState ≠ .REDOWNLOAD then (false, s)
  else
    let next_height := s.redownloadBufferLastHeight + 1
    if header.hashPrevBlock ≠ s.redownloadBufferLastHash then (false, s)
    else
      let previous_nBits :=
        match s.redownloadedHeaders.getLast? with
        | some c => c.nBits
        | none => s.chainStartHeader.nBits
      let prev_time : Int :=
        match s.redownloadedHeaders.getLast? with
        | some c => (c.nTime : Int)
        | none => (s.chainStartHeader.nTime : Int)
      if ¬checkWindowAwareRetarget s previous_nBits header.nBits
          (header.nTime : Int) prev_time next_height then
        (false, s)
      else redownloadAcceptHeader s header next_height

/-- The header-by-header loop of the REDOWNLOAD branch of
ProcessNextHeaders (src/headerssync.cpp lines 109-117). -/
def redownloadFold (s : HeadersSyncState) :
    List CBlockHeader → Bool × HeadersSyncState
  | [] => (true, s)
  | hdr :: rest =>
    match validateAndStoreRedownloadedHeader s hdr with
    | (false, s) => (false, s)
    | (true, s) => redownloadFold s rest

/-- The pop loop of PopHeadersReadyForAcceptance (src/headerssync.cpp
lines 310-315): releases front headers while the buffer exceeds
REDOWNLOAD_BUFFER_SIZE or the tail anchor has been reached, rebuilding
each with the advancing first-previous-hash cursor.  Returns the
released headers, the remaining buffer and the final cursor. -/
def popLoop (hashFn : CBlockHeader → Nat) (processAll : Bool) :
    List CompressedHeader → Nat → List CBlockHeader × List CompressedHeader × Nat
  | [], firstPrev => ([], [], firstPrev)
  | c :: rest, firstPrev =>
    if (c :: rest).length > REDOWNLOAD_BUFFER_SIZE ∨ processAll then
      let full := c.GetFullHeader firstPrev
      let r := popLoop hashFn processAll rest (hashFn full)
      (full :: r.1, r.2.1, r.2.2)
    else ([], c :: rest, firstPrev)

/-- HeadersSyncState::PopHeadersReadyForAcceptance (src/headerssync.cpp
lines 303-317). -/
def popHeadersReadyForAcceptance (s : HeadersSyncState) :
    List CBlockHeader × HeadersSyncState :=
  if s.downloadState ≠ .REDOWNLOAD then ([], s)
  else
    let r := popLoop s.hashFn s.processAllRemainingHeaders
      s.redownloadedHeaders s.redownloadBufferFirstPrevHash
    (r.1, { s with redownloadedHeaders := r.2.1,
                   redownloadBufferFirstPrevHash := r.2.2 })

/-- HeadersSyncState::ProcessNextHeaders (src/headerssync.cpp lines
75-140). -/
def processNextHeaders (s : HeadersSyncState)
    (received_headers : List CBlockHeader) (full_headers_message : Bool) :
    ProcessingResult × HeadersSyncState :=
  if received_headers.isEmpty then ({}, s)
  else if s.downloadState = .FINAL then ({}, s)
  else
    let step : ProcessingResult × HeadersSyncState :=
      if s.downloadState = .PRESYNC then
        match validateAndStoreHeadersCommitments s received_headers with
        | (ok, s) =>
          if ok then
            if full_headers_message ∨ s.downloadState = .REDOWNLOAD then
              ({ success := true, requestMore := true }, s)
            else ({ success := true }, s)
          else ({ success := false }, s)
      else
        match redownloadFold s received_headers with
        | (false, s) => ({ success := false }, s)
        | (true, s) =>
          let pr := popHeadersReadyForAcceptance s
          let s := pr.2
          let ret : ProcessingResult := { powValidatedHeaders := pr.1, success := true }
          if s.redownloadedHeaders.isEmpty ∧ s.processAllRemainingHeaders then (ret, s)
          else if full_headers_message then ({ ret with requestMore := true }, s)
          else (ret, s)
    if ¬(step.1.success ∧ step.1.requestMore) then (step.1, finalize step.2)
    else step

/-- HeadersSyncState::NextHeadersRequestLocator (src/headerssync.cpp
lines 319-340): the head of the current phase followed by the locator
entries of the chain start. -/
def nextHeadersRequestLocator (s : HeadersSyncState) : List Nat :=
  if s.downloadState = .FINAL then []
  else
    (if s.downloadState = .PRESYNC then [s.hashFn s.lastHeaderReceived]
     else [s.redownloadBufferLastHash]) ++ s.locatorEntriesOfChainStart

/-! ## C8: the MTP tracker median -/

/-- The lower median asserted by claim C8: the element at the floor
middle index `(n-1)/2` of the sorted list of present elements (for an
even count, the smaller of the two middle elements). -/
def c8LowerMedian (xs : List Int) : Int :=
  (List.insertionSort (· ≤ ·) xs).getD ((xs.length - 1) / 2) 0

/-- C8 counterexample: pushing 5 into a tracker holding [1] leaves the
even-count history [1, 5]; the tracker returns 5, the upper median,
while the lower median is 1. -/
theorem c8_counterexample :
    (computeMtpForNewTime [1] 5).2.length % 2 = 0 ∧
      (computeMtpForNewTime [1] 5).1 ≠
        c8LowerMedian (computeMtpForNewTime [1] 5).2 := by
  decide

/-- C8 (amended): a push that leaves an even count n of present
elements returns the element at index n/2 of the sorted list of
present elements - the upper median for an even count, with no padding
by absent entries. -/
theorem c8_amended_mtp_upper_median (times : List Int) (newTime : Int)
    (heven : (computeMtpForNewTime times newTime).2.length % 2 = 0) :
    (computeMtpForNewTime times newTime).1 =
      ((computeMtpForNewTime times newTime).2.mergeSort (fun a b => a ≤ b)).getD
        ((computeMtpForNewTime times newTime).2.length / 2) 0 := by
  simp only [computeMtpForNewTime]
  rw [List.mergeSort_eq_insertionSort]

/-- Witness for the amended C8 theorem at the concrete push of 5 into
[1]. -/
theorem c8_amended_witness :
    (computeMtpForNewTime [1] 5).2.length % 2 = 0 ∧
      (computeMtpForNewTime [1] 5).1 =
        ((computeMtpForNewTime [1] 5).2.mergeSort (fun a b => a ≤ b)).getD
          ((computeMtpForNewTime [1] 5).2.length / 2) 0 :=
  ⟨by decide, c8_amended_mtp_upper_median [1] 5 (by decide)⟩

/-! ## C3: failure semantics of ProcessNextHeaders -/

/-- A concrete fresh PRESYNC instance used as input for witnesses and
counterexamples. -/
def exampleState : HeadersSyncState :=
  { hashFn := fun h => h.nTime + h.nNonce,
    hasher := fun n => n % 2 == 1,
    consensusParams := c1ExampleParams,
    commitOffset := 0, maxCommitments := 10,
    minimumRequiredWork := 2 ^ 100,
    chainStartHeader := nullBlockHeader, chainStartHash := 0,
    chainStartHeight := 0, chainStartWork := 0, chainStartAncestors := [],
    locatorEntriesOfChainStart := [],
    downloadState := .PRESYNC, currentChainWork := 0,
    lastHeaderReceived := nullBlockHeader, currentHeight := 0,
    headerCommitments := [], redownloadedHeaders := [],
    redownloadBufferLastHash := 0, redownloadBufferFirstPrevHash := 0,
    redownloadBufferLastHeight := 0, redownloadChainWork := 0,
    processAllRemainingHeaders := false,
    recentNbits := [], recentMtp := [], last11Times := [] }

/-- C3 counterexample: an empty batch handed to a PRESYNC instance
returns success = false, yet the instance stays in PRESYNC instead of
reaching FINAL (the early defensive return skips finalization). -/
theorem c3_counterexample :
    (processNextHeaders exampleState [] true).1.success = false ∧
      (processNextHeaders exampleState [] true).2.downloadState ≠
        SyncState.FINAL := by
  decide

/-- The finalized instance is in the FINAL phase. -/
theorem finalize_downloadState (s : HeadersSyncState) :
    (finalize s).downloadState = SyncState.FINAL := rfl

/-- C3 (amended): for every call with a non-empty batch, if the
returned success flag is false then the returned validated-header list
is empty and the instance is FINAL after the call. -/
theorem c3_amended_failure_is_final (s : HeadersSyncState)
    (received : List CBlockHeader) (full : Bool) (hne : received ≠ [])
    (hfail : (processNextHeaders s received full).1.success = false) :
    (processNextHeaders s received full).1.powValidatedHeaders = [] ∧
      (processNextHeaders s received full).2.downloadState =
        SyncState.FINAL := by
  have hemp : received.isEmpty = false := by
    cases received with
    | nil => exact absurd rfl hne
    | cons a l => rfl
  cases hs : s.downloadState with
  | FINAL =>
    simp [processNextHeaders, hemp, hs]
  | PRESYNC =>
    rcases hv : validateAndStoreHeadersCommitments s received with ⟨ok, s2⟩
    cases ok with
    | false =>
      simp [processNextHeaders, hemp, hs, hv, finalize]
    | true =>
      exfalso
      simp only [processNextHeaders, hemp, hs, hv] at hfail
      simp [apply_ite (Prod.fst (α := ProcessingResult) (β := HeadersSyncState)),
            apply_ite ProcessingResult.success] at hfail
  | REDOWNLOAD =>
    rcases hv : redownloadFold s received with ⟨ok, s2⟩
    cases ok with
    | false =>
      simp [processNextHeaders, hemp, hs, hv, finalize]
    | true =>
      exfalso
      simp only [processNextHeaders, hemp, hs, hv] at hfail
      simp [apply_ite (Prod.fst (α := ProcessingResult) (β := HeadersSyncState)),
            apply_ite ProcessingResult.success] at hfail

/-- Witness for the amended C3 theorem: a finalized instance rejects a
non-empty batch with success = false, an empty list and phase FINAL. -/
theorem c3_amended_witness :
    ([nullBlockHeader] ≠ ([] : List CBlockHeader)) ∧
      (processNextHeaders (finalize exampleState) [nullBlockHeader] true).1.success = false ∧
      (processNextHeaders (finalize exampleState) [nullBlockHeader] true).1.powValidatedHeaders = [] ∧
      (processNextHeaders (finalize exampleState) [nullBlockHeader] true).2.downloadState =
        SyncState.FINAL := by
  refine ⟨by decide, by decide, ?_⟩
  exact c3_amended_failure_is_final (finalize exampleState) [nullBlockHeader] true
    (by decide) (by decide)

/-! ## C7: phase monotonicity and terminal FINAL -/

/-- Position of a phase in the PRESYNC, REDOWNLOAD, FINAL order. -/
def phaseRank : SyncState → Nat
  | .PRESYNC => 0
  | .REDOWNLOAD => 1
  | .FINAL => 2

theorem phaseRank_le_two (st : SyncState) : phaseRank st ≤ 2 := by
  cases st <;> simp [phaseRank]

theorem phaseRank_FINAL : phaseRank SyncState.FINAL = 2 := rfl

@[simp] theorem pushRetargetSample_downloadState (s : HeadersSyncState)
    (nbits : Nat) (mtp : Int) :
    (pushRetargetSample s nbits mtp).downloadState = s.downloadState := rfl

@[simp] theorem seedRetargetBuffers_downloadState (s : HeadersSyncState) :
    (seedRetargetBuffersFromLastHeader s).downloadState = s.downloadState := rfl

theorem replayFold_downloadState (l : List CBlockHeader) :
    ∀ st : HeadersSyncState,
      (l.foldl
        (fun st hdr =>
          let m := computeMtpForNewTime st.last11Times (hdr.nTime : Int)
          pushRetargetSample { st with last11Times := m.2 } hdr.nBits m.1)
        st).downloadState = st.downloadState := by
  induction l with
  | nil => intro st; rfl
  | cons a t ih => intro st; rw [List.foldl_cons, ih]; rfl

@[simp] theorem resetRetargetBuffers_downloadState (s : HeadersSyncState) :
    (resetRetargetBuffersToChainStart s).downloadState = s.downloadState := by
  simp only [resetRetargetBuffersToChainStart]
  rw [replayFold_downloadState]

@[simp] theorem presyncAcceptHeader_downloadState (s : HeadersSyncState)
    (hdr : CBlockHeader) (next_height : Int) :
    (presyncAcceptHeader s hdr next_height).2.downloadState = s.downloadState := by
  simp [presyncAcceptHeader,
    apply_ite (Prod.snd (α := Bool) (β := HeadersSyncState)),
    apply_ite (Prod.fst (α := Bool) (β := HeadersSyncState)),
    apply_ite HeadersSyncState.downloadState]

theorem validateAndProcessSingleHeader_downloadState (s : HeadersSyncState)
    (hdr : CBlockHeader) :
    (validateAndProcessSingleHeader s hdr).2.downloadState = s.downloadState := by
  simp [validateAndProcessSingleHeader,
    apply_ite (Prod.snd (α := Bool) (β := HeadersSyncState)),
    apply_ite (Prod.fst (α := Bool) (β := HeadersSyncState)),
    apply_ite HeadersSyncState.downloadState]

theorem validateHeadersFold_downloadState :
    ∀ (l : List CBlockHeader) (s : HeadersSyncState),
      (validateHeadersFold s l).2.downloadState = s.downloadState := by
  intro l
  induction l with
  | nil => intro s; rfl
  | cons hdr t ih =>
    intro s
    have h1 := validateAndProcessSingleHeader_downloadState s hdr
    rcases hv : validateAndProcessSingleHeader s hdr with ⟨ok, s2⟩
    rw [hv] at h1
    cases ok with
    | false => simpa [validateHeadersFold, hv] using h1
    | true => simp only [validateHeadersFold, hv]; rw [ih s2]; exact h1

theorem validateAndStoreHeadersCommitments_rank (s : HeadersSyncState)
    (headers : List CBlockHeader) :
    phaseRank s.downloadState ≤
      phaseRank (validateAndStoreHeadersCommitments s headers).2.downloadState := by
  unfold validateAndStoreHeadersCommitments
  split
  · exact le_refl _
  split
  · exact le_refl _
  split
  · exact le_refl _
  rename_i hpre _
  have hs : s.downloadState = SyncState.PRESYNC := by
    by_contra hne; exact hpre hne
  have hfold := validateHeadersFold_downloadState headers s
  rcases hv : validateHeadersFold s headers with ⟨ok, s2⟩
  rw [hv] at hfold
  cases ok with
  | false => simp only [hv]; rw [hfold]
  | true =>
    simp only [hv]
    split
    · simp [hs, phaseRank]
    · rw [hfold]

@[simp] theorem redownloadAcceptHeader_downloadState (s : HeadersSyncState)
    (hdr : CBlockHeader) (next_height : Int) :
    (redownloadAcceptHeader s hdr next_height).2.downloadState = s.downloadState := by
  simp [redownloadAcceptHeader,
    apply_ite (Prod.snd (α := Bool) (β := HeadersSyncState)),
    apply_ite (Prod.fst (α := Bool) (β := HeadersSyncState)),
    apply_ite HeadersSyncState.downloadState]

theorem validateAndStoreRedownloadedHeader_downloadState (s : HeadersSyncState)
    (hdr : CBlockHeader) :
    (validateAndStoreRedownloadedHeader s hdr).2.downloadState = s.downloadState := by
  simp [validateAndStoreRedownloadedHeader,
    apply_ite (Prod.snd (α := Bool) (β := HeadersSyncState)),
    apply_ite (Prod.fst (α := Bool) (β := HeadersSyncState)),
    apply_ite HeadersSyncState.downloadState]

theorem redownloadFold_downloadState :
    ∀ (l : List CBlockHeader) (s : HeadersSyncState),
      (redownloadFold s l).2.downloadState = s.downloadState := by
  intro l
  induction l with
  | nil => intro s; rfl
  | cons hdr t ih =>
    intro s
    have h1 := validateAndStoreRedownloadedHeader_downloadState s hdr
    rcases hv : validateAndStoreRedownloadedHeader s hdr with ⟨ok, s2⟩
    rw [hv] at h1
    cases ok with
    | false => simpa [redownloadFold, hv] using h1
    | true => simp only [redownloadFold, hv]; rw [ih s2]; exact h1

@[simp] theorem popHeadersReadyForAcceptance_downloadState (s : HeadersSyncState) :
    (popHeadersReadyForAcceptance s).2.downloadState = s.downloadState := by
  unfold popHeadersReadyForAcceptance
  split <;> rfl

/-- C7: the phase only ever advances in the order PRESYNC, REDOWNLOAD,
FINAL under ProcessNextHeaders and Finalize; a FINAL instance is left
untouched by ProcessNextHeaders (which reports failure), produces an
empty locator, and Finalize is idempotent. -/
theorem c7_phase_monotone_final_terminal (s : HeadersSyncState)
    (received : List CBlockHeader) (full : Bool) :
    phaseRank s.downloadState ≤
        phaseRank (processNextHeaders s received full).2.downloadState ∧
      phaseRank s.downloadState ≤ phaseRank (finalize s).downloadState ∧
      (s.downloadState = SyncState.FINAL →
        processNextHeaders s received full = ({}, s) ∧
          nextHeadersRequestLocator s = []) ∧
      finalize (finalize s) = finalize s := by
  refine ⟨?_, ?_, ?_, rfl⟩
  · by_cases hemp : received.isEmpty = true
    · simp [processNextHeaders, hemp]
    · by_cases hfin : s.downloadState = SyncState.FINAL
      · simp [processNextHeaders, hemp, hfin, phaseRank]
      · by_cases hpre : s.downloadState = SyncState.PRESYNC
        · rcases hv : validateAndStoreHeadersCommitments s received with ⟨ok, s2⟩
          have hrank := validateAndStoreHeadersCommitments_rank s received
          rw [hv] at hrank
          cases ok with
          | false =>
            simp only [processNextHeaders, hemp, hfin, hpre, hv]
            simp [finalize_downloadState, phaseRank_FINAL, phaseRank_le_two]
          | true =>
            rw [hpre] at hrank
            by_cases hm : (full = true ∨ s2.downloadState = SyncState.REDOWNLOAD)
            · simp only [processNextHeaders, hemp, hfin, hpre, hv]
              simpa [hm, hpre] using hrank
            · simp only [processNextHeaders, hemp, hfin, hpre, hv]
              simp [hm, finalize_downloadState, phaseRank_FINAL, phaseRank_le_two]
        · rcases hv : redownloadFold s received with ⟨ok, s2⟩
          have hfold := redownloadFold_downloadState received s
          rw [hv] at hfold
          cases ok with
          | false =>
            simp only [processNextHeaders, hemp, hfin, hpre, hv]
            simp [finalize_downloadState, phaseRank_FINAL, phaseRank_le_two]
          | true =>
            rcases hp : popHeadersReadyForAcceptance s2 with ⟨popped, s3⟩
            have hpop := popHeadersReadyForAcceptance_downloadState s2
            rw [hp] at hpop
            simp only [processNextHeaders, hemp, hfin, hpre, hv, hp]
            repeat' split
            all_goals
              simp_all [finalize_downloadState, phaseRank_FINAL, phaseRank_le_two]
  · exact (phaseRank_le_two _).trans (by simp [finalize_downloadState, phaseRank])
  · intro hfin
    refine ⟨?_, by simp [nextHeadersRequestLocator, hfin]⟩
    by_cases hemp : received.isEmpty = true
    · simp [processNextHeaders, hemp]
    · simp [processNextHeaders, hemp, hfin]

/-- Witness for the C7 theorem at a concrete finalized instance. -/
theorem c7_witness :
    (finalize exampleState).downloadState = SyncState.FINAL ∧
      (processNextHeaders (finalize exampleState) [nullBlockHeader] true =
          ({}, finalize exampleState) ∧
        nextHeadersRequestLocator (finalize exampleState) = []) :=
  ⟨rfl, (c7_phase_monotone_final_terminal (finalize exampleState)
    [nullBlockHeader] true).2.2.1 rfl⟩

/-! ## C5: the commitment buffer never exceeds max_commitments -/

theorem replayFold_commitment_fields (l : List CBlockHeader) :
    ∀ st : HeadersSyncState,
      ((l.foldl
        (fun st hdr =>
          let m := computeMtpForNewTime st.last11Times (hdr.nTime : Int)
          pushRetargetSample { st with last11Times := m.2 } hdr.nBits m.1)
        st).headerCommitments = st.headerCommitments ∧
       (l.foldl
        (fun st hdr =>
          let m := computeMtpForNewTime st.last11Times (hdr.nTime : Int)
          pushRetargetSample { st with last11Times := m.2 } hdr.nBits m.1)
        st).maxCommitments = st.maxCommitments) := by
  induction l with
  | nil => intro st; exact ⟨rfl, rfl⟩
  | cons a t ih =>
    intro st
    rw [List.foldl_cons]
    exact ⟨(ih _).1, (ih _).2⟩

@[simp] theorem pushRetargetSample_headerCommitments (s : HeadersSyncState)
    (nbits : Nat) (mtp : Int) :
    (pushRetargetSample s nbits mtp).headerCommitments = s.headerCommitments := rfl

@[simp] theorem pushRetargetSample_maxCommitments (s : HeadersSyncState)
    (nbits : Nat) (mtp : Int) :
    (pushRetargetSample s nbits mtp).maxCommitments = s.maxCommitments := rfl

@[simp] theorem seedRetargetBuffers_headerCommitments (s : HeadersSyncState) :
    (seedRetargetBuffersFromLastHeader s).headerCommitments = s.headerCommitments := rfl

@[simp] theorem seedRetargetBuffers_maxCommitments (s : HeadersSyncState) :
    (seedRetargetBuffersFromLastHeader s).maxCommitments = s.maxCommitments := rfl

@[simp] theorem resetRetargetBuffers_headerCommitments (s : HeadersSyncState) :
    (resetRetargetBuffersToChainStart s).headerCommitments = s.headerCommitments := by
  simp only [resetRetargetBuffersToChainStart]
  exact (replayFold_commitment_fields _ _).1

@[simp] theorem resetRetargetBuffers_maxCommitments (s : HeadersSyncState) :
    (resetRetargetBuffersToChainStart s).maxCommitments = s.maxCommitments := by
  simp only [resetRetargetBuffersToChainStart]
  exact (replayFold_commitment_fields _ _).2

theorem presyncAcceptHeader_commitments (s : HeadersSyncState)
    (hdr : CBlockHeader) (next_height : Int)
    (hlen : s.headerCommitments.length ≤ s.maxCommitments)
    (hok : (presyncAcceptHeader s hdr next_height).1 = true) :
    (presyncAcceptHeader s hdr next_height).2.headerCommitments.length ≤
      (presyncAcceptHeader s hdr next_height).2.maxCommitments := by
  unfold presyncAcceptHeader at hok ⊢
  by_cases hsched : (next_height % (2 ^ 64 : Int)).toNat % HEADER_COMMITMENT_PERIOD =
      s.commitOffset
  · simp only [if_pos hsched] at hok ⊢
    by_cases hover : s.headerCommitments.length + 1 > s.maxCommitments
    · simp [hover] at hok
    · simp [hover]
      omega
  · simp only [if_neg hsched] at hok ⊢
    simpa using hlen

theorem validateAndProcessSingleHeader_commitments (s : HeadersSyncState)
    (hdr : CBlockHeader)
    (hlen : s.headerCommitments.length ≤ s.maxCommitments)
    (hok : (validateAndProcessSingleHeader s hdr).1 = true) :
    (validateAndProcessSingleHeader s hdr).2.headerCommitments.length ≤
      (validateAndProcessSingleHeader s hdr).2.maxCommitments := by
  unfold validateAndProcessSingleHeader at hok ⊢
  by_cases hseed : s.recentNbits.isEmpty = true
  · simp only [if_pos hseed] at hok ⊢
    split at hok
    · exact absurd hok (by simp)
    · rename_i hguard
      split at hok
      · exact absurd hok (by simp)
      · rename_i hchk
        rw [if_neg hguard, if_neg hchk]
        exact presyncAcceptHeader_commitments _ hdr _ (by simpa using hlen) hok
  · simp only [if_neg hseed] at hok ⊢
    split at hok
    · exact absurd hok (by simp)
    · rename_i hguard
      split at hok
      · exact absurd hok (by simp)
      · rename_i hchk
        rw [if_neg hguard, if_neg hchk]
        exact presyncAcceptHeader_commitments _ hdr _ hlen hok

theorem validateHeadersFold_commitments :
    ∀ (l : List CBlockHeader) (s : HeadersSyncState),
      s.headerCommitments.length ≤ s.maxCommitments →
      (validateHeadersFold s l).1 = true →
      (validateHeadersFold s l).2.headerCommitments.length ≤
        (validateHeadersFold s l).2.maxCommitments := by
  intro l
  induction l with
  | nil => intro s hlen _; exact hlen
  | cons hdr t ih =>
    intro s hlen hok
    rcases hv : validateAndProcessSingleHeader s hdr with ⟨ok, s2⟩
    cases ok with
    | false =>
      simp only [validateHeadersFold, hv] at hok
      exact absurd hok (by simp)
    | true =>
      have h1 := validateAndProcessSingleHeader_commitments s hdr hlen
        (by rw [hv])
      rw [hv] at h1
      simp only [validateHeadersFold, hv] at hok ⊢
      exact ih s2 h1 hok

theorem validateAndStoreHeadersCommitments_bound (s : HeadersSyncState)
    (headers : List CBlockHeader)
    (hlen : s.headerCommitments.length ≤ s.maxCommitments)
    (hok : (validateAndStoreHeadersCommitments s headers).1 = true) :
    (validateAndStoreHeadersCommitments s headers).2.headerCommitments.length ≤
      (validateAndStoreHeadersCommitments s headers).2.maxCommitments := by
  unfold validateAndStoreHeadersCommitments at hok ⊢
  split
  · exact hlen
  split
  · simp_all
  split
  · simp_all
  have hfold := validateHeadersFold_commitments headers s hlen
  rcases hv : validateHeadersFold s headers with ⟨okf, sf⟩
  rw [hv] at hfold
  cases okf with
  | false =>
    rw [hv] at hok
    simp_all
  | true =>
    simp only [hv]
    split
    · simpa using hfold rfl
    · exact hfold rfl

theorem redownloadAcceptHeader_commitments (s : HeadersSyncState)
    (hdr : CBlockHeader) (next_height : Int) :
    (redownloadAcceptHeader s hdr next_height).2.headerCommitments.length ≤
        s.headerCommitments.length ∧
      (redownloadAcceptHeader s hdr next_height).2.maxCommitments =
        s.maxCommitments := by
  unfold redownloadAcceptHeader
  by_cases hwork :
      ({ s with redownloadChainWork := u256add s.redownloadChainWork (blockProof hdr.nBits)
        } : HeadersSyncState).redownloadChainWork ≥
        ({ s with redownloadChainWork := u256add s.redownloadChainWork (blockProof hdr.nBits)
          } : HeadersSyncState).minimumRequiredWork
  · simp only [if_pos hwork]
    repeat' split
    all_goals simp_all [List.length_tail]
    all_goals omega
  · simp only [if_neg hwork]
    repeat' split
    all_goals simp_all [List.length_tail]
    all_goals omega

theorem validateAndStoreRedownloadedHeader_commitments (s : HeadersSyncState)
    (hdr : CBlockHeader) :
    (validateAndStoreRedownloadedHeader s hdr).2.headerCommitments.length ≤
        s.headerCommitments.length ∧
      (validateAndStoreRedownloadedHeader s hdr).2.maxCommitments =
        s.maxCommitments := by
  unfold validateAndStoreRedownloadedHeader
  dsimp only
  repeat' split
  all_goals first
    | exact ⟨le_refl _, rfl⟩
    | exact redownloadAcceptHeader_commitments _ hdr _

theorem redownloadFold_commitments :
    ∀ (l : List CBlockHeader) (s : HeadersSyncState),
      (redownloadFold s l).2.headerCommitments.length ≤
          s.headerCommitments.length ∧
        (redownloadFold s l).2.maxCommitments = s.maxCommitments := by
  intro l
  induction l with
  | nil => intro s; exact ⟨le_refl _, rfl⟩
  | cons hdr t ih =>
    intro s
    have h1 := validateAndStoreRedownloadedHeader_commitments s hdr
    rcases hv : validateAndStoreRedownloadedHeader s hdr with ⟨ok, s2⟩
    rw [hv] at h1
    cases ok with
    | false => simpa [redownloadFold, hv] using h1
    | true =>
      simp only [redownloadFold, hv]
      exact ⟨le_trans (ih s2).1 h1.1, (ih s2).2.trans h1.2⟩

@[simp] theorem popHeadersReadyForAcceptance_headerCommitments (s : HeadersSyncState) :
    (popHeadersReadyForAcceptance s).2.headerCommitments = s.headerCommitments := by
  unfold popHeadersReadyForAcceptance
  split <;> rfl

@[simp] theorem popHeadersReadyForAcceptance_maxCommitments (s : HeadersSyncState) :
    (popHeadersReadyForAcceptance s).2.maxCommitments = s.maxCommitments := by
  unfold popHeadersReadyForAcceptance
  split <;> rfl

@[simp] theorem finalize_headerCommitments (s : HeadersSyncState) :
    (finalize s).headerCommitments = [] := rfl

@[simp] theorem finalize_maxCommitments (s : HeadersSyncState) :
    (finalize s).maxCommitments = s.maxCommitments := rfl

/-- C5: if the commitment FIFO respects the max_commitments cap before
a ProcessNextHeaders call, it still respects it afterwards - a PRESYNC
header whose commitment would push the count past the cap fails the
call, which finalizes the instance and releases the buffer - and a
finalized instance trivially respects it. -/
theorem c5_commitments_bounded (s : HeadersSyncState)
    (received : List CBlockHeader) (full : Bool)
    (hlen : s.headerCommitments.length ≤ s.maxCommitments) :
    ((processNextHeaders s received full).2.headerCommitments.length ≤
        (processNextHeaders s received full).2.maxCommitments) ∧
      (finalize s).headerCommitments.length ≤ (finalize s).maxCommitments := by
  refine ⟨?_, by simp⟩
  by_cases hemp : received.isEmpty = true
  · simpa [processNextHeaders, hemp] using hlen
  by_cases hfin : s.downloadState = SyncState.FINAL
  · simpa [processNextHeaders, hemp, hfin] using hlen
  by_cases hpre : s.downloadState = SyncState.PRESYNC
  · have hbound := validateAndStoreHeadersCommitments_bound s received hlen
    rcases hv : validateAndStoreHeadersCommitments s received with ⟨ok, s2⟩
    rw [hv] at hbound
    cases ok with
    | false =>
      simp [processNextHeaders, hemp, hfin, hpre, hv]
    | true =>
      by_cases hm : (full = true ∨ s2.downloadState = SyncState.REDOWNLOAD)
      · simpa [processNextHeaders, hemp, hfin, hpre, hv, hm] using hbound rfl
      · simp [processNextHeaders, hemp, hfin, hpre, hv, hm]
  · have hfold := redownloadFold_commitments received s
    rcases hv : redownloadFold s received with ⟨ok, s2⟩
    rw [hv] at hfold
    cases ok with
    | false =>
      simp [processNextHeaders, hemp, hfin, hpre, hv]
    | true =>
      rcases hp : popHeadersReadyForAcceptance s2 with ⟨popped, s3⟩
      have hpc := popHeadersReadyForAcceptance_headerCommitments s2
      have hpm := popHeadersReadyForAcceptance_maxCommitments s2
      rw [hp] at hpc hpm
      simp only [processNextHeaders, hemp, hfin, hpre, hv, hp]
      repeat' split
      all_goals simp_all
      all_goals omega

/-- Witness for the C5 theorem at a concrete fresh instance and a
single-header batch. -/
theorem c5_witness :
    exampleState.headerCommitments.length ≤ exampleState.maxCommitments ∧
      ((processNextHeaders exampleState [nullBlockHeader] true).2.headerCommitments.length ≤
          (processNextHeaders exampleState [nullBlockHeader] true).2.maxCommitments) ∧
      (finalize exampleState).headerCommitments.length ≤
        (finalize exampleState).maxCommitments :=
  ⟨by decide, c5_commitments_bounded exampleState [nullBlockHeader] true (by decide)⟩

/-! ## C2 and C6: the window-aware admissibility check -/

/-- The expected target of claim C2: the decoded result of
CalculateNextWorkRequiredNew over the current window (the window
average of the decoded recent bits together with the first and last
recent MTP samples). -/
def windowExpectedTarget (p : ConsensusParams) (nbits : List Nat)
    (mtps : List Int) : Nat :=
  setCompactValue (calculateNextWorkRequiredNew
    (u256div (nbits.foldl (fun acc nb => u256add acc (setCompactValue nb)) 0)
      ((p.nPowAveragingWindow % (2 ^ 32 : Int)).toNat))
    (mtps.getLastD 0) (mtps.headD 0) p)

/-- C2: for a warmed-up instance past the activation transition window
with the post-activation min-difficulty branch not applying,
CheckWindowAwareRetarget accepts iff the decoded next bits lie within
the ±4 slack around the window-expected target (the lower bound
saturating at zero) or the legacy PermittedDifficultyTransition
envelope accepts. -/
theorem c2_window_check_iff (s : HeadersSyncState)
    (prev_nbits next_nbits : Nat) (next_time prev_time next_height : Int)
    (hbits : (s.recentNbits.length : Int) = s.consensusParams.nPowAveragingWindow)
    (hmtp : (s.recentMtp.length : Int) = s.consensusParams.nPowAveragingWindow + 1)
    (hheight : next_height > s.consensusParams.nNewPowDiffHeight +
      s.consensusParams.nPowAveragingWindow)
    (hnomin : ¬∃ v, s.consensusParams.nPowAllowMinDifficultyBlocksAfterHeight = some v ∧
      ((next_height - 1) % (2 ^ 32 : Int)).toNat ≥ v ∧
      next_time > prev_time + s.consensusParams.PoWTargetSpacing * 6) :
    (checkWindowAwareRetarget s prev_nbits next_nbits next_time prev_time
        next_height = true ↔
      ((windowExpectedTarget s.consensusParams s.recentNbits s.recentMtp - 4 ≤
          setCompactValue next_nbits ∧
        setCompactValue next_nbits ≤
          u256add (windowExpectedTarget s.consensusParams s.recentNbits s.recentMtp) 4) ∨
        permittedDifficultyTransition s.consensusParams next_height prev_nbits
          next_nbits = true)) := by
  simp only [windowExpectedTarget]
  unfold checkWindowAwareRetarget
  rw [if_neg (by omega), if_neg (by omega)]
  have tail : ∀ E O : Nat,
      ((if O < (if E > 4 then E - 4 else 0) ∨ O > u256add E 4 then
          permittedDifficultyTransition s.consensusParams next_height prev_nbits
            next_nbits
        else true) = true ↔
        ((E - 4 ≤ O ∧ O ≤ u256add E 4) ∨
          permittedDifficultyTransition s.consensusParams next_height prev_nbits
            next_nbits = true)) := by
    intro E O
    have hite : (if E > 4 then E - 4 else 0) = E - 4 := by split <;> omega
    rw [hite]
    by_cases hr : O < E - 4 ∨ O > u256add E 4
    · rw [if_pos hr]
      have hnot : ¬(E - 4 ≤ O ∧ O ≤ u256add E 4) := by omega
      constructor
      · exact fun hp => Or.inr hp
      · rintro (hrange | hp)
        · exact absurd hrange hnot
        · exact hp
    · rw [if_neg hr]
      have hin : E - 4 ≤ O ∧ O ≤ u256add E 4 := by omega
      simp [hin]
  cases hopt : s.consensusParams.nPowAllowMinDifficultyBlocksAfterHeight with
  | none =>
    simp only [hopt]
    exact tail _ _
  | some v =>
    simp only [hopt]
    by_cases hcast : ((next_height - 1) % (2 ^ 32 : Int)).toNat ≥ v
    · by_cases htime : next_time > prev_time + s.consensusParams.PoWTargetSpacing * 6
      · exact absurd ⟨v, hopt, hcast, htime⟩ hnomin
      · rw [if_pos hcast, if_neg htime]
        exact tail _ _
    · rw [if_neg hcast]
      exact tail _ _

/-- A warmed-up concrete instance (full 17-sample window) used for the
C2 witness. -/
def c2ExampleState : HeadersSyncState :=
  { exampleState with
      recentNbits := List.replicate 17 0x013c0000,
      recentMtp := List.replicate 18 0 }

/-- Witness for the C2 theorem at a concrete warmed-up instance. -/
theorem c2_witness :
    ((c2ExampleState.recentNbits.length : Int) =
        c2ExampleState.consensusParams.nPowAveragingWindow) ∧
      (checkWindowAwareRetarget c2ExampleState 0x013c0000 0x013c0000 100 40 100 = true ↔
        ((windowExpectedTarget c2ExampleState.consensusParams c2ExampleState.recentNbits
            c2ExampleState.recentMtp - 4 ≤ setCompactValue 0x013c0000 ∧
          setCompactValue 0x013c0000 ≤
            u256add (windowExpectedTarget c2ExampleState.consensusParams
              c2ExampleState.recentNbits c2ExampleState.recentMtp) 4) ∨
          permittedDifficultyTransition c2ExampleState.consensusParams 100
            0x013c0000 0x013c0000 = true)) :=
  ⟨by decide,
    c2_window_check_iff c2ExampleState 0x013c0000 0x013c0000 100 40 100
      (by decide) (by decide) (by decide)
      (by
        rintro ⟨v, hv, -, -⟩
        simp [c2ExampleState, exampleState, c1ExampleParams] at hv)⟩

/-- Window-of-one parameters with the min-difficulty activation height
set to 5, used around claim C6. -/
def c6ExampleParams : ConsensusParams :=
  { powLimit := 2 ^ 255, nPowAveragingWindow := 1, nPowMaxAdjustUp := 0,
    nPowMaxAdjustDown := 0, nPostBlossomPowTargetSpacing := 60,
    nPowTargetTimespan := 14400, nPowTargetSpacing := 60,
    fPowAllowMinDifficultyBlocks := false,
    nPowAllowMinDifficultyBlocksAfterHeight := some 5,
    fPowNoRetargeting := false, nNewPowDiffHeight := 0 }

/-- A warmed-up instance over `c6ExampleParams` whose single window
sample decodes to target 60. -/
def c6ExampleState : HeadersSyncState :=
  { exampleState with
      consensusParams := c6ExampleParams,
      recentNbits := [0x013c0000],
      recentMtp := [0, 0] }

set_option maxRecDepth 10000 in
/-- C6 counterexample: at next_height = 2^32 + 1 every hypothesis of
the claim holds - the activation height 5 is set and
next_height − 1 = 2^32 ≥ 5, the timestamp gap exceeds 6·spacing, the
buffers are full and the height is past the transition window - yet
the code compares the 32-bit truncation (2^32) mod 2^32 = 0 < 5, skips
the min-difficulty branch, and accepts bits 0x013c0000, which is not
the compact encoding of pow_limit. -/
theorem c6_counterexample :
    (c6ExampleState.consensusParams.nPowAllowMinDifficultyBlocksAfterHeight =
        some 5 ∧
      ((2 ^ 32 + 1 : Int) - 1 ≥ (5 : Int)) ∧
      ((1000 : Int) > 0 + c6ExampleState.consensusParams.PoWTargetSpacing * 6) ∧
      ((c6ExampleState.recentNbits.length : Int) =
        c6ExampleState.consensusParams.nPowAveragingWindow) ∧
      ((c6ExampleState.recentMtp.length : Int) =
        c6ExampleState.consensusParams.nPowAveragingWindow + 1) ∧
      ((2 ^ 32 + 1 : Int) > c6ExampleState.consensusParams.nNewPowDiffHeight +
        c6ExampleState.consensusParams.nPowAveragingWindow)) ∧
      checkWindowAwareRetarget c6ExampleState 0x013c0000 0x013c0000 1000 0
        (2 ^ 32 + 1) = true ∧
      (0x013c0000 : Nat) ≠ getCompact c6ExampleState.consensusParams.powLimit := by
  refine ⟨by decide, by decide, by decide⟩

/-- C6 (amended): when the activation height is set and the comparison
the code actually performs - on the 32-bit truncation of
next_height − 1 - succeeds, and the timestamp gap exceeds 6·spacing,
a warmed-up instance past the transition window accepts iff next_bits
is the compact encoding of pow_limit. -/
theorem c6_amended_min_difficulty_branch (s : HeadersSyncState)
    (prev_nbits next_nbits : Nat) (next_time prev_time next_height : Int) (v : Nat)
    (hbits : (s.recentNbits.length : Int) = s.consensusParams.nPowAveragingWindow)
    (hmtp : (s.recentMtp.length : Int) = s.consensusParams.nPowAveragingWindow + 1)
    (hheight : next_height > s.consensusParams.nNewPowDiffHeight +
      s.consensusParams.nPowAveragingWindow)
    (hopt : s.consensusParams.nPowAllowMinDifficultyBlocksAfterHeight = some v)
    (hcast : ((next_height - 1) % (2 ^ 32 : Int)).toNat ≥ v)
    (htime : next_time > prev_time + s.consensusParams.PoWTargetSpacing * 6) :
    (checkWindowAwareRetarget s prev_nbits next_nbits next_time prev_time
        next_height = true ↔
      next_nbits = getCompact s.consensusParams.powLimit) := by
  unfold checkWindowAwareRetarget
  rw [if_neg (by omega), if_neg (by omega)]
  simp only [hopt, if_pos hcast, if_pos htime]
  simp

/-- Witness for the amended C6 theorem: at height 100 (whose 32-bit
truncation 99 still exceeds the activation height 5) the branch applies
and pow-limit bits are accepted. -/
theorem c6_amended_witness :
    (c6ExampleState.consensusParams.nPowAllowMinDifficultyBlocksAfterHeight =
        some 5 ∧
      (((100 : Int) - 1) % (2 ^ 32 : Int)).toNat ≥ 5 ∧
      ((1000 : Int) > 0 + c6ExampleState.consensusParams.PoWTargetSpacing * 6)) ∧
      (checkWindowAwareRetarget c6ExampleState 0x013c0000
          (getCompact c6ExampleState.consensusParams.powLimit) 1000 0 100 = true ↔
        getCompact c6ExampleState.consensusParams.powLimit =
          getCompact c6ExampleState.consensusParams.powLimit) :=
  ⟨⟨by decide, by decide, by decide⟩,
    c6_amended_min_difficulty_branch c6ExampleState 0x013c0000
      (getCompact c6ExampleState.consensusParams.powLimit) 1000 0 100 5
      (by decide) (by decide) (by decide) (by decide) (by decide) (by decide)⟩

/-! ## C9 and C10: GetNextWorkRequiredNew over the chain index -/

/-- Minimal view of a CBlockIndex entry read by the pow functions:
height, compact bits and time.  A chain is a list of entries, tip
first, following the pprev links. -/
structure BlockIdx where
  nHeight : Int
  nBits : Nat
  nTime : Int
deriving DecidableEq

/-- Modelled from the spec: CBlockIndex::GetMedianTimePast (chain.h is
not under src/) - the median of the times of the last up-to-eleven
entries, the element at the floor middle index of the sorted list. -/
def getMedianTimePast (chain : List BlockIdx) : Int :=
  let times := (chain.take 11).map (fun e => e.nTime)
  (List.insertionSort (· ≤ ·) times).getD (times.length / 2) 0

/-- The post-activation min-difficulty test of GetNextWorkRequiredNew
(src/pow.cpp lines 117-132): the activation height is set, the previous
height reaches it (as the C++ unsigned comparison computes it), the
candidate block is present and its time exceeds the previous time by
more than six spacings. -/
def newMinDifficultyRule (pindexLast : BlockIdx) (pblock : Option CBlockHeader)
    (params : ConsensusParams) : Bool :=
  match params.nPowAllowMinDifficultyBlocksAfterHeight with
  | some v =>
    if (pindexLast.nHeight % (2 ^ 32 : Int)).toNat ≥ v then
      match pblock with
      | some pb => decide ((pb.nTime : Int) >
          pindexLast.nTime + params.PoWTargetSpacing * 6)
      | none => false
    else false
  | none => false

/-- GetNextWorkRequiredNew (src/pow.cpp lines 99-162): pow-limit bits
for a null tip, pass-through bits under fPowNoRetargeting, pow-limit
bits under the post-activation min-difficulty rule, pow-limit bits
when the averaging walk runs off the start of the chain, and otherwise
the window-average retarget. -/
def getNextWorkRequiredNew (chain : List BlockIdx) (pblock : Option CBlockHeader)
    (params : ConsensusParams) : Nat :=
  let nProofOfWorkLimit := getCompact params.powLimit
  match chain with
  | [] => nProofOfWorkLimit
  | pindexLast :: _ =>
    if params.fPowNoRetargeting then pindexLast.nBits
    else if newMinDifficultyRule pindexLast pblock params then nProofOfWorkLimit
    else
      let win := params.nPowAveragingWindow
      let bnTot := (chain.take win.toNat).foldl
        (fun acc e => u256add acc (setCompactValue e.nBits)) 0
      if (chain.length : Int) ≤ win then nProofOfWorkLimit
      else
        let bnAvg := u256div bnTot (u256ofInt win)
        calculateNextWorkRequiredNew bnAvg (getMedianTimePast chain)
          (getMedianTimePast (chain.drop win.toNat)) params

/-- C9: with fPowNoRetargeting set, GetNextWorkRequiredNew returns the
previous block's nBits unchanged for any non-null tip, block header
and remaining parameters. -/
theorem c9_no_retargeting (pindexLast : BlockIdx) (rest : List BlockIdx)
    (pblock : Option CBlockHeader) (p : ConsensusParams)
    (hnr : p.fPowNoRetargeting = true) :
    getNextWorkRequiredNew (pindexLast :: rest) pblock p = pindexLast.nBits := by
  simp [getNextWorkRequiredNew, hnr]

/-- Witness for the C9 theorem at a concrete chain and parameters. -/
theorem c9_witness :
    ({ c1ExampleParams with fPowNoRetargeting := true
      } : ConsensusParams).fPowNoRetargeting = true ∧
      getNextWorkRequiredNew [{ nHeight := 7, nBits := 0x013c0000, nTime := 9 }]
        none { c1ExampleParams with fPowNoRetargeting := true } = 0x013c0000 :=
  ⟨by decide,
    c9_no_retargeting { nHeight := 7, nBits := 0x013c0000, nTime := 9 } [] none
      { c1ExampleParams with fPowNoRetargeting := true } (by decide)⟩

/-- C10: with no-retargeting off and the min-difficulty branch not
returning, a non-null tip whose chain is too short for the averaging
window (the walk over nPowAveragingWindow predecessors runs off the
start) makes GetNextWorkRequiredNew return the compact encoding of the
pow limit. -/
theorem c10_short_chain_pow_limit (pindexLast : BlockIdx)
    (rest : List BlockIdx) (pblock : Option CBlockHeader) (p : ConsensusParams)
    (hshort : ((pindexLast :: rest).length : Int) ≤ p.nPowAveragingWindow)
    (hnr : p.fPowNoRetargeting = false)
    (hmin : newMinDifficultyRule pindexLast pblock p = false) :
    getNextWorkRequiredNew (pindexLast :: rest) pblock p =
      getCompact p.powLimit := by
  simp only [getNextWorkRequiredNew, hnr, hmin, Bool.false_eq_true, if_false]
  rw [if_pos hshort]

/-- Witness for the C10 theorem: a one-block chain under a 17-block
averaging window. -/
theorem c10_witness :
    (([({ nHeight := 0, nBits := 0x013c0000, nTime := 9 } : BlockIdx)].length : Int) ≤
        c1ExampleParams.nPowAveragingWindow ∧
      c1ExampleParams.fPowNoRetargeting = false ∧
      newMinDifficultyRule { nHeight := 0, nBits := 0x013c0000, nTime := 9 } none
        c1ExampleParams = false) ∧
      getNextWorkRequiredNew [{ nHeight := 0, nBits := 0x013c0000, nTime := 9 }]
        none c1ExampleParams = getCompact c1ExampleParams.powLimit :=
  ⟨⟨by decide, by decide, by decide⟩,
    c10_short_chain_pow_limit { nHeight := 0, nBits := 0x013c0000, nTime := 9 } []
      none c1ExampleParams (by decide) (by decide) (by decide)⟩

end BellsPow
